import Mathlib

/-!
# The PyFI / Eigen binding module `eigen_PyMOD.cpp`

A shallow embedding of the three entry points `printmat`, `pinv` and `solve`
of `include/PyFI/eigen_PyMOD.cpp`, and of the descriptor list that registers
them.  Each entry point is a straight sequence of binding-framework steps
(`PYFI_START`, `PYFI_POSARG`, `PYFI_SETOUTPUT_ALLOC`, `PYFI_END`), reads of a
`std::vector<uint64_t>` of extents, narrowing initialisations of `int`
variables, and one call into the `PyFEigen` library.  The embedding passes the
state of one call explicitly and returns `Except Fault`, so that a rejected
argument and an out-of-bounds read are visible results.

The element type `float` is the parameter `α`: this module performs no
arithmetic on elements, only the library does.
-/

namespace PyFI

/-- The class `PyFI::Array<T>`: the vector of extents (64-bit unsigned values)
and the flat element buffer. -/
structure Array (α : Type) where
  dims : List Nat
  data : List α
deriving DecidableEq, Repr

/-- The member `dimensions_vector()`: a copy of the extents. -/
def Array.dimensions_vector {α : Type} (A : Array α) : List Nat := A.dims

/-- How a call can stop before `PYFI_END`. -/
inductive Fault where
  /-- the binding framework refused a positional argument -/
  | rejected
  /-- `operator[]` of a `std::vector` was applied to an index that is not below its size -/
  | outOfBounds
deriving DecidableEq, Repr

/-- The state of one call of an entry point. -/
structure Call (α : Type) where
  /-- the positional arguments, as the caller passed them -/
  args : List (Array α)
  /-- how many positional arguments have been parsed so far -/
  parsed : Nat
  /-- the two `int` arguments of the `ArrayDimensions` constructor at the output allocation -/
  requested : Option (Int × Int)
  /-- the value set for return; `none` means that no output was set -/
  output : Option (Array α)
  /-- the texts written by the print routine, oldest first -/
  printed : List String
deriving DecidableEq, Repr

/-- The parts of the call that live outside this source file and are taken as
given functions: the contents of a freshly allocated buffer, and the three
`PyFEigen` routines.  A routine that fills an output array is given as the
function from its arguments to the contents it leaves in that array. -/
structure Externals (α : Type) where
  /-- contents of a buffer newly allocated for the given extents -/
  newBuffer : List Nat → List α
  /-- `PyFEigen::PrintArrayAsEigenMat(A)`: the text it writes -/
  PrintArrayAsEigenMat : Array α → String
  /-- `PyFEigen::PseudoInverse(A, B)`: the contents it leaves in `B` -/
  PseudoInverse : Array α → Array α → List α
  /-- `PyFEigen::MLDivide(A, B, X)`: the contents it leaves in `X` -/
  MLDivide : Array α → Array α → Array α → List α

/-- `dims[i]` on a `std::vector<uint64_t>`: the entry when `i` is below the
size, otherwise the read is out of bounds. -/
def index (dims : List Nat) (i : Nat) : Except Fault Nat :=
  match dims.get? i with
  | some d => .ok d
  | none => .error .outOfBounds

/-- The initialisation `int x = dims[i]`: a 64-bit unsigned value narrowed to
a 32-bit signed `int`, that is reduced modulo `2^32` into `[-2^31, 2^31)`. -/
def toInt (d : Nat) : Int :=
  if d % 2 ^ 32 < 2 ^ 31 then ((d % 2 ^ 32 : Nat) : Int)
  else ((d % 2 ^ 32 : Nat) : Int) - 2 ^ 32

/-- Modelled from the spec: `ArrayDimensions` is declared in `PyFI/PyFI.h`,
which is not among the sources.  The spec calls a dimension vector "an
ordered pair (rows, columns)" and the output "sized from input dimensions":
the constructor with two arguments builds the vector of these two extents, in
the order given.  Extents are 64-bit unsigned, so an `int` argument arrives
converted as C++ converts it, modulo `2^64`. -/
def ArrayDimensions (i j : Int) : List Nat :=
  [(i % 2 ^ 64).toNat, (j % 2 ^ 64).toNat]

/-- A newly allocated array of the given extents. -/
def newArray {α : Type} (ext : Externals α) (dims : List Nat) : Array α :=
  { dims := dims, data := ext.newBuffer dims }

/-- Modelled from the spec: `PYFI_START()` is a macro of `PyFI/PyFI.h`.  It
opens the call: nothing parsed, no output set, nothing printed. -/
def PYFI_START {α : Type} (args : List (Array α)) : Call α :=
  { args := args, parsed := 0, requested := none, output := none, printed := [] }

/-- Modelled from the spec: `PYFI_POSARG(Array<float>, A)` is a macro of
`PyFI/PyFI.h`.  It binds the next positional argument ("invoked by position
with one or two array arguments"); a call that has no such argument is the
framework's to reject.  The argument list itself is left as it is. -/
def PYFI_POSARG {α : Type} (s : Call α) : Except Fault (Array α × Call α) :=
  match s.args.get? s.parsed with
  | some A => .ok (A, { s with parsed := s.parsed + 1 })
  | none => .error .rejected

/-- Modelled from the spec: `PYFI_SETOUTPUT_ALLOC(Array<float>, B, ArrayDimensions(i, j))`
is a macro of `PyFI/PyFI.h`.  It allocates "an output buffer of the derived
shape", binds it to `B` and sets it as the value to return. -/
def PYFI_SETOUTPUT_ALLOC {α : Type} (ext : Externals α) (i j : Int) (s : Call α) :
    Array α × Call α :=
  let B : Array α := newArray ext (ArrayDimensions i j)
  (B, { s with requested := some (i, j), output := some B })

/-- The effect on the call of a library routine that has filled the output
array, which the entry point passed by reference, with `data`. -/
def Call.outputFilled {α : Type} (s : Call α) (data : List α) : Call α :=
  { s with output := s.output.map fun B => { B with data := data } }

/-- Modelled from the spec: `PYFI_END()` is a macro of `PyFI/PyFI.h`.  It
"returns control to the caller; the allocated output is the return value". -/
def PYFI_END {α : Type} (s : Call α) : Except Fault (Call α) := .ok s

/-- The entry point `PYFI_FUNC(printmat)`. -/
def printmat {α : Type} (ext : Externals α) (args : List (Array α)) :
    Except Fault (Call α) := do
  let s := PYFI_START args
  let (A, s) ← PYFI_POSARG s
  let s := { s with printed := s.printed ++ [ext.PrintArrayAsEigenMat A] }
  PYFI_END s

/-- The entry point `PYFI_FUNC(pinv)`. -/
def pinv {α : Type} (ext : Externals α) (args : List (Array α)) :
    Except Fault (Call α) := do
  let s := PYFI_START args
  let (A, s) ← PYFI_POSARG s
  let dims := A.dimensions_vector
  let m : Int := toInt (← index dims 0)
  let n : Int := toInt (← index dims 1)
  let (B, s) := PYFI_SETOUTPUT_ALLOC ext n m s
  let s := s.outputFilled (ext.PseudoInverse A B)
  PYFI_END s

/-- The entry point `PYFI_FUNC(solve)`. -/
def solve {α : Type} (ext : Externals α) (args : List (Array α)) :
    Except Fault (Call α) := do
  let s := PYFI_START args
  let (A, s) ← PYFI_POSARG s
  let dims := A.dimensions_vector
  let n : Int := toInt (← index dims 0)
  let (B, s) ← PYFI_POSARG s
  let dims := B.dimensions_vector
  let p : Int := toInt (← index dims 0)
  let (X, s) := PYFI_SETOUTPUT_ALLOC ext p n s
  let s := s.outputFilled (ext.MLDivide A B X)
  PYFI_END s

/-- One entry of the descriptor list: `PYFI_DESC(name, doc)` names an entry
point, refers to its function and carries its description. -/
structure Desc (α : Type) where
  name : String
  func : Externals α → List (Array α) → Except Fault (Call α)
  doc : String

/-- The descriptor list between `PYFI_LIST_START_` and `PYFI_LIST_END_`. -/
def PYFI_LIST (α : Type) : List (Desc α) :=
  [ { name := "printmat", func := printmat, doc := "Convert to Eigen Mat and Print" },
    { name := "pinv", func := pinv, doc := "PseudoInverse" },
    { name := "solve", func := solve, doc := "Least Squares Solver (SVD)" } ]

/-- The names of the functions this file defines with `PYFI_FUNC`. -/
def PYFI_FUNC_names : List String := ["printmat", "pinv", "solve"]

/-- A library used to evaluate the entry points on concrete arrays of
integers: a new buffer is empty, the print routine writes a fixed text,
`PseudoInverse` leaves the contents of its input and `MLDivide` the contents
of its two inputs, one after the other. -/
def sampleExt : Externals Int :=
  { newBuffer := fun _ => []
    PrintArrayAsEigenMat := fun _ => "mat"
    PseudoInverse := fun A _ => A.data
    MLDivide := fun A B _ => A.data ++ B.data }

/-- The extents of the value a call returns, when it returns one. -/
def returnedDims {α : Type} (r : Except Fault (Call α)) : Option (List Nat) :=
  match r with
  | .ok s => s.output.map fun B => B.dims
  | .error _ => none

/-- What the spec says `pinv` returns: the freshly allocated output `B`
holding what the library's pseudoinverse routine writes for input `A`. -/
def pinv_spec {α : Type} (ext : Externals α) (A B : Array α) : Array α :=
  { dims := B.dims, data := ext.PseudoInverse A B }

/-- What the spec says `solve` returns: the freshly allocated output `X`
holding what the library's left-division routine writes for inputs `A` and
`B`, in that order. -/
def solve_spec {α : Type} (ext : Externals α) (A B X : Array α) : Array α :=
  { dims := X.dims, data := ext.MLDivide A B X }

/-! ## Evaluation lemmas -/

theorem toInt_of_lt {d : Nat} (h : d < 2 ^ 31) : toInt d = (d : Int) := by
  unfold toInt
  split <;> omega

theorem toInt_lt (d : Nat) : toInt d < 2 ^ 31 := by
  unfold toInt
  have h2 : d % 2 ^ 32 < 2 ^ 32 := Nat.mod_lt _ (by norm_num)
  split <;> omega

theorem toInt_ne_of_le {d : Nat} (h : 2 ^ 31 ≤ d) : toInt d ≠ (d : Int) := by
  have := toInt_lt d
  omega

theorem ArrayDimensions_of_lt {i j : Nat} (hi : i < 2 ^ 31) (hj : j < 2 ^ 31) :
    ArrayDimensions (toInt i) (toInt j) = [i, j] := by
  rw [toInt_of_lt hi, toInt_of_lt hj]
  have h1 : ((i : Int) % 2 ^ 64).toNat = i := by omega
  have h2 : ((j : Int) % 2 ^ 64).toNat = j := by omega
  unfold ArrayDimensions
  rw [h1, h2]

theorem printmat_eval {α : Type} (ext : Externals α) (A : Array α) (rest : List (Array α)) :
    printmat ext (A :: rest) = .ok
      { args := A :: rest, parsed := 1, requested := none, output := none,
        printed := [ext.PrintArrayAsEigenMat A] } := rfl

theorem pinv_eval {α : Type} (ext : Externals α) (A : Array α) (rest : List (Array α))
    (m n : Nat) (tl : List Nat) (h : A.dims = m :: n :: tl) :
    pinv ext (A :: rest) = .ok
      { args := A :: rest, parsed := 1, requested := some (toInt n, toInt m),
        output := some (pinv_spec ext A (newArray ext (ArrayDimensions (toInt n) (toInt m)))),
        printed := [] } := by
  simp [pinv, PYFI_START, PYFI_POSARG, PYFI_SETOUTPUT_ALLOC, PYFI_END, Call.outputFilled,
    Array.dimensions_vector, h, index, pinv_spec, newArray, bind, Except.bind]

theorem solve_eval {α : Type} (ext : Externals α) (A B : Array α) (rest : List (Array α))
    (n p : Nat) (tlA tlB : List Nat) (hA : A.dims = n :: tlA) (hB : B.dims = p :: tlB) :
    solve ext (A :: B :: rest) = .ok
      { args := A :: B :: rest, parsed := 2, requested := some (toInt p, toInt n),
        output := some (solve_spec ext A B (newArray ext (ArrayDimensions (toInt p) (toInt n)))),
        printed := [] } := by
  simp [solve, PYFI_START, PYFI_POSARG, PYFI_SETOUTPUT_ALLOC, PYFI_END, Call.outputFilled,
    Array.dimensions_vector, hA, hB, index, solve_spec, newArray, bind, Except.bind]

/-! ## Output shapes -/

/-- C1, as stated, fails: an input of extents `(2^32, 1)` gives `pinv` an
output of extents `(1, 0)`, not `(1, 2^32)`, because `int m = dims[0]` keeps
only the low 32 bits of the extent. -/
theorem pinv_shape_counterexample :
    returnedDims (pinv sampleExt [{ dims := [2 ^ 32, 1], data := List.replicate (2 ^ 32) 0 }])
        = some [1, 0] ∧
      returnedDims (pinv sampleExt [{ dims := [2 ^ 32, 1], data := List.replicate (2 ^ 32) 0 }])
        ≠ some [1, 2 ^ 32] := by
  constructor
  · rfl
  · decide

/-- C1, amended: for every input array `A` whose dimension vector is `(m, n)`
with both extents below `2^31`, `pinv` allocates and returns an output array
whose dimensions are `(n, m)`. -/
theorem pinv_shape {α : Type} (ext : Externals α) (A : Array α) (m n : Nat)
    (hA : A.dimensions_vector = [m, n]) (hm : m < 2 ^ 31) (hn : n < 2 ^ 31) :
    ∃ s B, pinv ext [A] = .ok s ∧ s.output = some B ∧ B.dimensions_vector = [n, m] := by
  refine ⟨_, _, pinv_eval ext A [] m n [] hA, rfl, ?_⟩
  simp [Array.dimensions_vector, pinv_spec, newArray, ArrayDimensions_of_lt hn hm]

/-- The amended C1 at an array of extents `(2, 3)`. -/
theorem pinv_shape_witness :
    ∃ s B, pinv sampleExt [{ dims := [2, 3], data := [1, 2, 3, 4, 5, 6] }] = .ok s ∧
      s.output = some B ∧ B.dimensions_vector = [3, 2] :=
  pinv_shape sampleExt { dims := [2, 3], data := [1, 2, 3, 4, 5, 6] } 2 3 rfl
    (by decide) (by decide)

/-- C2, as stated, fails: for `A` of extents `(2, 3)` and `B` of extents
`(5, 2)` the output of `solve` has extents `(5, 2)`, not `(5, 3)`: the second
output extent is the first extent of `A`, not its second.  And for `A` of
extents `(2^32, 1)` the second output extent is `0`: `int n = dims[0]` keeps
only the low 32 bits. -/
theorem solve_shape_counterexample :
    returnedDims (solve sampleExt
        [{ dims := [2, 3], data := [1, 2, 3, 4, 5, 6] },
         { dims := [5, 2], data := [1, 2, 3, 4, 5, 6, 7, 8, 9, 10] }]) = some [5, 2] ∧
      returnedDims (solve sampleExt
        [{ dims := [2, 3], data := [1, 2, 3, 4, 5, 6] },
         { dims := [5, 2], data := [1, 2, 3, 4, 5, 6, 7, 8, 9, 10] }]) ≠ some [5, 3] ∧
      returnedDims (solve sampleExt
        [{ dims := [2 ^ 32, 1], data := List.replicate (2 ^ 32) 0 },
         { dims := [5, 2 ^ 32], data := List.replicate (5 * 2 ^ 32) 0 }]) = some [5, 0] := by
  refine ⟨rfl, ?_, rfl⟩
  decide

/-- C2, amended: for every `A` whose dimension vector is `(n, m)` and every
`B` whose dimension vector is `(p, m)`, with `n` and `p` below `2^31`,
`solve` allocates and returns an output array whose dimensions are `(p, n)`,
where `n` is the first extent of `A` and `p` the first extent of `B`. -/
theorem solve_shape {α : Type} (ext : Externals α) (A B : Array α) (n m p : Nat)
    (hA : A.dimensions_vector = [n, m]) (hB : B.dimensions_vector = [p, m])
    (hn : n < 2 ^ 31) (hp : p < 2 ^ 31) :
    ∃ s X, solve ext [A, B] = .ok s ∧ s.output = some X ∧ X.dimensions_vector = [p, n] := by
  refine ⟨_, _, solve_eval ext A B [] n p [m] [m] hA hB, rfl, ?_⟩
  simp [Array.dimensions_vector, solve_spec, newArray, ArrayDimensions_of_lt hp hn]

/-- The amended C2 at arrays of extents `(3, 2)` and `(5, 2)`. -/
theorem solve_shape_witness :
    ∃ s X, solve sampleExt
        [{ dims := [3, 2], data := [1, 2, 3, 4, 5, 6] },
         { dims := [5, 2], data := [1, 2, 3, 4, 5, 6, 7, 8, 9, 10] }] = .ok s ∧
      s.output = some X ∧ X.dimensions_vector = [5, 3] :=
  solve_shape sampleExt { dims := [3, 2], data := [1, 2, 3, 4, 5, 6] }
    { dims := [5, 2], data := [1, 2, 3, 4, 5, 6, 7, 8, 9, 10] } 3 2 5 rfl rfl
    (by decide) (by decide)

/-- C3: `solve` never rejects on a dimension mismatch.  For every `A` and `B`
with two-entry dimension vectors, whatever their second extents `m` and `k`
are, the call is not a fault: it allocates the output from the two first
extents and returns it holding what the solver wrote for `A`, `B` and that
output.  And two calls whose inputs agree on the first extents of `A` and of
`B` return outputs of the same shape, whatever the second extents. -/
theorem solve_no_dimension_check {α : Type} (ext : Externals α) (A B A2 B2 : Array α)
    (n m p k m2 k2 : Nat)
    (hA : A.dimensions_vector = [n, m]) (hB : B.dimensions_vector = [p, k])
    (hA2 : A2.dimensions_vector = [n, m2]) (hB2 : B2.dimensions_vector = [p, k2]) :
    (∃ s X, solve ext [A, B] = .ok s ∧
        s.requested = some (toInt p, toInt n) ∧
        X = newArray ext (ArrayDimensions (toInt p) (toInt n)) ∧
        s.output = some { dims := X.dims, data := ext.MLDivide A B X }) ∧
      returnedDims (solve ext [A, B]) = returnedDims (solve ext [A2, B2]) := by
  constructor
  · exact ⟨_, _, solve_eval ext A B [] n p [m] [k] hA hB, rfl, rfl, rfl⟩
  · rw [solve_eval ext A B [] n p [m] [k] hA hB, solve_eval ext A2 B2 [] n p [m2] [k2] hA2 hB2]
    rfl

/-- C3 at inputs whose second extents differ (`2` and `4`), against a second call with the same first extents. -/
theorem solve_no_dimension_check_witness :
    (∃ s X, solve sampleExt
          [{ dims := [3, 2], data := [1, 2, 3, 4, 5, 6] },
           { dims := [1, 4], data := [7, 8, 9, 10] }] = .ok s ∧
        s.requested = some (toInt 1, toInt 3) ∧
        X = newArray sampleExt (ArrayDimensions (toInt 1) (toInt 3)) ∧
        s.output = some
          { dims := X.dims
            data := sampleExt.MLDivide { dims := [3, 2], data := [1, 2, 3, 4, 5, 6] }
              { dims := [1, 4], data := [7, 8, 9, 10] } X }) ∧
      returnedDims (solve sampleExt
          [{ dims := [3, 2], data := [1, 2, 3, 4, 5, 6] }, { dims := [1, 4], data := [7, 8, 9, 10] }])
        = returnedDims (solve sampleExt
          [{ dims := [3, 1], data := [1, 2, 3] }, { dims := [1, 2], data := [4, 5] }]) :=
  solve_no_dimension_check sampleExt { dims := [3, 2], data := [1, 2, 3, 4, 5, 6] }
    { dims := [1, 4], data := [7, 8, 9, 10] } { dims := [3, 1], data := [1, 2, 3] }
    { dims := [1, 2], data := [4, 5] } 3 2 1 4 1 2 rfl rfl rfl rfl

/-! ## `printmat` -/

/-- C4: for every input array `A`, `printmat` completes with no output set
and with the argument list as the caller passed it; all it does with `A` is
hand it to the print routine, whose text is the only thing the call adds. -/
theorem printmat_frame {α : Type} (ext : Externals α) (A : Array α) :
    ∃ s, printmat ext [A] = .ok s ∧ s.output = none ∧ s.requested = none ∧
      s.args = [A] ∧ s.printed = [ext.PrintArrayAsEigenMat A] :=
  ⟨_, printmat_eval ext A [], rfl, rfl, rfl, rfl⟩

/-! ## Delegation to the library -/

/-- C5: with the library routines taken as given functions, the value `pinv`
returns for `A` is the freshly allocated output holding exactly what
`PseudoInverse` writes for `A` and that output, and the value `solve` returns
for `(A, B)` is the freshly allocated output holding exactly what `MLDivide`
writes for `A`, `B` (in that order) and that output; both calls leave the
argument list as it was passed and print nothing. -/
theorem entry_points_delegate {α : Type} (ext : Externals α) (A B : Array α)
    (hA : A.dimensions_vector.length = 2) (hB : B.dimensions_vector.length = 2) :
    (∃ s i j, pinv ext [A] = .ok s ∧ s.requested = some (i, j) ∧
        s.output = some (pinv_spec ext A (newArray ext (ArrayDimensions i j))) ∧
        s.args = [A] ∧ s.printed = []) ∧
      (∃ s i j, solve ext [A, B] = .ok s ∧ s.requested = some (i, j) ∧
        s.output = some (solve_spec ext A B (newArray ext (ArrayDimensions i j))) ∧
        s.args = [A, B] ∧ s.printed = []) := by
  obtain ⟨a0, a1, ha⟩ := List.length_eq_two.mp hA
  obtain ⟨b0, b1, hb⟩ := List.length_eq_two.mp hB
  exact ⟨⟨_, _, _, pinv_eval ext A [] a0 a1 [] ha, rfl, rfl, rfl, rfl⟩,
    ⟨_, _, _, solve_eval ext A B [] a0 b0 [a1] [b1] ha hb, rfl, rfl, rfl, rfl⟩⟩

/-- C5 at arrays of extents `(2, 3)` and `(1, 3)`. -/
theorem entry_points_delegate_witness :
    (∃ s i j, pinv sampleExt [{ dims := [2, 3], data := [1, 2, 3, 4, 5, 6] }] = .ok s ∧
        s.requested = some (i, j) ∧
        s.output = some (pinv_spec sampleExt { dims := [2, 3], data := [1, 2, 3, 4, 5, 6] }
          (newArray sampleExt (ArrayDimensions i j))) ∧
        s.args = [{ dims := [2, 3], data := [1, 2, 3, 4, 5, 6] }] ∧ s.printed = []) ∧
      (∃ s i j, solve sampleExt
          [{ dims := [2, 3], data := [1, 2, 3, 4, 5, 6] }, { dims := [1, 3], data := [7, 8, 9] }]
            = .ok s ∧
        s.requested = some (i, j) ∧
        s.output = some (solve_spec sampleExt { dims := [2, 3], data := [1, 2, 3, 4, 5, 6] }
          { dims := [1, 3], data := [7, 8, 9] } (newArray sampleExt (ArrayDimensions i j))) ∧
        s.args = [{ dims := [2, 3], data := [1, 2, 3, 4, 5, 6] },
          { dims := [1, 3], data := [7, 8, 9] }] ∧ s.printed = []) :=
  entry_points_delegate sampleExt { dims := [2, 3], data := [1, 2, 3, 4, 5, 6] }
    { dims := [1, 3], data := [7, 8, 9] } rfl rfl

/-! ## The descriptor list -/

/-- C6: the descriptor list registers exactly three operations, named
`printmat`, `pinv` and `solve` in that order, each with a description that
is not empty; every registered name is the name of a function defined with
`PYFI_FUNC`, and the entry registered under a name refers to that function. -/
theorem descriptor_list (α : Type) :
    (PYFI_LIST α).length = 3 ∧
      (PYFI_LIST α).map (fun d => d.name) = ["printmat", "pinv", "solve"] ∧
      (PYFI_LIST α).all (fun d => decide (d.doc ≠ "")) = true ∧
      (PYFI_LIST α).all (fun d => decide (d.name ∈ PYFI_FUNC_names)) = true ∧
      (PYFI_LIST α).map (fun d => d.func) = [printmat, pinv, solve] := by
  refine ⟨rfl, rfl, ?_, ?_, rfl⟩
  · simp [PYFI_LIST]
  · simp [PYFI_LIST, PYFI_FUNC_names]

/-! ## Inputs of rank one, and inputs of rank two -/

/-- C8, as stated, fails for `printmat` and for `solve`: with inputs whose
dimension vectors have one entry, both calls complete at this layer.
`printmat` reads no extent, and `solve` reads only index 0 of each vector. -/
theorem rank_one_counterexample :
    printmat sampleExt [{ dims := [4], data := [1, 2, 3, 4] }] = .ok
        { args := [{ dims := [4], data := [1, 2, 3, 4] }], parsed := 1, requested := none,
          output := none, printed := ["mat"] } ∧
      solve sampleExt [{ dims := [4], data := [1, 2, 3, 4] }, { dims := [2], data := [5, 6] }]
        = .ok
        { args := [{ dims := [4], data := [1, 2, 3, 4] }, { dims := [2], data := [5, 6] }],
          parsed := 2, requested := some (2, 4),
          output := some { dims := [2, 4], data := [1, 2, 3, 4, 5, 6] }, printed := [] } :=
  ⟨rfl, rfl⟩

/-- C8, amended: a call of `pinv` whose input array has a one-entry dimension
vector reaches the out-of-bounds read of the dimension vector (the read of
index 1).  A call of `printmat` or of `solve` whose input arrays have
one-entry dimension vectors is neither rejected nor out of bounds at this
layer: it hands the arrays to the library routine and completes. -/
theorem rank_one_behaviour {α : Type} (ext : Externals α) (A B : Array α)
    (hA : A.dimensions_vector.length = 1) (hB : B.dimensions_vector.length = 1) :
    pinv ext [A] = .error .outOfBounds ∧
      (∃ s, printmat ext [A] = .ok s ∧ s.printed = [ext.PrintArrayAsEigenMat A]) ∧
      (∃ s X, solve ext [A, B] = .ok s ∧ s.output = some X ∧
        X.data = ext.MLDivide A B { dims := X.dims, data := ext.newBuffer X.dims }) := by
  obtain ⟨a0, ha⟩ := List.length_eq_one.mp hA
  obtain ⟨b0, hb⟩ := List.length_eq_one.mp hB
  refine ⟨?_, ⟨_, printmat_eval ext A [], rfl⟩,
    ⟨_, _, solve_eval ext A B [] a0 b0 [] [] ha hb, rfl, rfl⟩⟩
  simp only [Array.dimensions_vector] at ha
  simp [pinv, PYFI_START, PYFI_POSARG, Array.dimensions_vector, ha, index, bind, Except.bind]

/-- The amended C8 at arrays of extents `(4)` and `(2)`. -/
theorem rank_one_behaviour_witness :
    pinv sampleExt [{ dims := [4], data := [1, 2, 3, 4] }] = .error .outOfBounds ∧
      (∃ s, printmat sampleExt [{ dims := [4], data := [1, 2, 3, 4] }] = .ok s ∧
        s.printed = [sampleExt.PrintArrayAsEigenMat { dims := [4], data := [1, 2, 3, 4] }]) ∧
      (∃ s X, solve sampleExt
          [{ dims := [4], data := [1, 2, 3, 4] }, { dims := [2], data := [5, 6] }] = .ok s ∧
        s.output = some X ∧
        X.data = sampleExt.MLDivide { dims := [4], data := [1, 2, 3, 4] }
          { dims := [2], data := [5, 6] }
          { dims := X.dims, data := sampleExt.newBuffer X.dims }) :=
  rank_one_behaviour sampleExt { dims := [4], data := [1, 2, 3, 4] }
    { dims := [2], data := [5, 6] } rfl rfl

/-- C9: in a call whose input arrays all have dimension vectors of exactly
two entries, the reads of indices 0 and 1 of an input's dimension vector
succeed, and neither `pinv` nor `solve` ends in the out-of-bounds fault. -/
theorem index_reads_in_bounds {α : Type} (ext : Externals α) (args : List (Array α))
    (h : ∀ A ∈ args, A.dimensions_vector.length = 2) :
    (∀ A ∈ args, ∃ d0 d1, index A.dimensions_vector 0 = .ok d0 ∧
        index A.dimensions_vector 1 = .ok d1) ∧
      pinv ext args ≠ .error .outOfBounds ∧ solve ext args ≠ .error .outOfBounds := by
  have two : ∀ A ∈ args, ∃ d0 d1, A.dims = [d0, d1] := fun A hA =>
    List.length_eq_two.mp (h A hA)
  refine ⟨?_, ?_, ?_⟩
  · intro A hA
    obtain ⟨d0, d1, hd⟩ := two A hA
    exact ⟨d0, d1, by simp [Array.dimensions_vector, hd, index],
      by simp [Array.dimensions_vector, hd, index]⟩
  · cases args with
    | nil => simp [pinv, PYFI_START, PYFI_POSARG, bind, Except.bind]
    | cons A rest =>
      obtain ⟨d0, d1, hd⟩ := two A (List.mem_cons_self _ _)
      rw [pinv_eval ext A rest d0 d1 [] hd]
      simp
  · cases args with
    | nil => simp [solve, PYFI_START, PYFI_POSARG, bind, Except.bind]
    | cons A rest =>
      obtain ⟨d0, d1, hd⟩ := two A (List.mem_cons_self _ _)
      cases rest with
      | nil =>
        simp [solve, PYFI_START, PYFI_POSARG, Array.dimensions_vector, hd, index, bind,
          Except.bind]
      | cons B rest2 =>
        obtain ⟨e0, e1, he⟩ := two B (List.mem_cons_of_mem _ (List.mem_cons_self _ _))
        rw [solve_eval ext A B rest2 d0 e0 [d1] [e1] hd he]
        simp

/-- C9 at a call with two arrays of rank two. -/
theorem index_reads_in_bounds_witness :
    (∀ A ∈ [({ dims := [2, 3], data := [1, 2, 3, 4, 5, 6] } : Array Int),
          { dims := [1, 3], data := [7, 8, 9] }],
        ∃ d0 d1, index A.dimensions_vector 0 = .ok d0 ∧
          index A.dimensions_vector 1 = .ok d1) ∧
      pinv sampleExt [{ dims := [2, 3], data := [1, 2, 3, 4, 5, 6] },
          { dims := [1, 3], data := [7, 8, 9] }] ≠ .error .outOfBounds ∧
      solve sampleExt [{ dims := [2, 3], data := [1, 2, 3, 4, 5, 6] },
          { dims := [1, 3], data := [7, 8, 9] }] ≠ .error .outOfBounds :=
  index_reads_in_bounds sampleExt
    [{ dims := [2, 3], data := [1, 2, 3, 4, 5, 6] }, { dims := [1, 3], data := [7, 8, 9] }]
    (by simp [Array.dimensions_vector])

/-! ## Narrowing of the extents -/

/-- C10: `pinv` and `solve` pass to the output allocation the extents they
read, each narrowed to `int`: `pinv` passes the narrowed second and first
extents of `A`, `solve` the narrowed first extents of `B` and of `A`.  An
extent below `2^31` is passed unchanged, and for an extent of `2^31` or more
the value passed differs from the extent. -/
theorem extents_narrowed {α : Type} (ext : Externals α) (A B : Array α) (a0 a1 b0 b1 : Nat) :
    A.dimensions_vector = [a0, a1] → B.dimensions_vector = [b0, b1] →
    (∃ s, pinv ext [A] = .ok s ∧ s.requested = some (toInt a1, toInt a0)) ∧
      (∃ s, solve ext [A, B] = .ok s ∧ s.requested = some (toInt b0, toInt a0)) ∧
      ∀ d ∈ [a0, a1, b0],
        (d < 2 ^ 31 → toInt d = (d : Int)) ∧ (2 ^ 31 ≤ d → toInt d ≠ (d : Int)) := by
  intro hA hB
  refine ⟨⟨_, pinv_eval ext A [] a0 a1 [] hA, rfl⟩,
    ⟨_, solve_eval ext A B [] a0 b0 [a1] [b1] hA hB, rfl⟩, ?_⟩
  intro d _
  exact ⟨toInt_of_lt, toInt_ne_of_le⟩

/-- C10 at extents `2^31`, `3` and `2^32 + 7`. -/
theorem extents_narrowed_witness :
    (∃ s, pinv sampleExt [{ dims := [2 ^ 31, 3], data := List.replicate (2 ^ 31 * 3) 0 }] = .ok s ∧
        s.requested = some (toInt 3, toInt (2 ^ 31))) ∧
      (∃ s, solve sampleExt [{ dims := [2 ^ 31, 3], data := List.replicate (2 ^ 31 * 3) 0 },
          { dims := [2 ^ 32 + 7, 3], data := List.replicate ((2 ^ 32 + 7) * 3) 0 }] = .ok s ∧
        s.requested = some (toInt (2 ^ 32 + 7), toInt (2 ^ 31))) ∧
      ∀ d ∈ [2 ^ 31, 3, 2 ^ 32 + 7],
        (d < 2 ^ 31 → toInt d = (d : Int)) ∧ (2 ^ 31 ≤ d → toInt d ≠ (d : Int)) :=
  extents_narrowed sampleExt { dims := [2 ^ 31, 3], data := List.replicate (2 ^ 31 * 3) 0 }
    { dims := [2 ^ 32 + 7, 3], data := List.replicate ((2 ^ 32 + 7) * 3) 0 }
    (2 ^ 31) 3 (2 ^ 32 + 7) 3 rfl rfl

end PyFI
